import Mathlib

/-!
Verification development for the schmervice service-locator layer.

The repository ships the type surface (`src/lib/index.d.ts`) together with its
documentation comments; the runtime registration-and-resolution engine itself
is not part of the shipped sources. The definitions below are therefore a
shallow model of that engine. Modelled from the spec: the realm tree,
registration, name/sandbox resolution, the `withName` helper, the `caching`
configuration call and `bind` are reconstructed from the specification's
description of the engine, with the documentation comments in
`src/lib/index.d.ts` (the `sandbox` symbol, `SchmerviceDecorator`, `WithName`,
`Service.caching`, `Service.bind`) taking precedence wherever they describe
behaviour, since they are part of the shipped sources.

In particular the visibility direction follows `src/lib/index.d.ts`: a
service registered by a plugin is visible in its own realm and in the realms
of that plugin's ancestors (`server.services()` returns the services
registered by `server` or by any plugin for which `server` is an ancestor,
excluding sandboxed ones) — i.e. a realm's view merges its own services with
its descendants' non-sandboxed services.
-/

namespace Schmervice

/-- The error kinds of the engine, as enumerated by the specification. -/
inductive SchmerviceError where
  | DuplicateName
  | MissingName
  | CachingAlreadyConfigured
  | UnknownCachedMethod
  | NameAlreadySet
  | SandboxAlreadySet
  | UnknownNamespace
  | GenerateTimeout
deriving DecidableEq, Repr

/-- The `ServiceSandbox` union from `src/lib/index.d.ts`:
`boolean | 'plugin' | 'server'`. -/
inductive ServiceSandbox where
  | ofBool (b : Bool)
  | plugin
  | server
deriving DecidableEq, Repr

/-- A sandbox value of `true` or `'plugin'` sandboxes the service; `false`,
`'server'` or an absent value leaves the default server-wide visibility
(doc comment of the `sandbox` symbol in `src/lib/index.d.ts`). -/
def sandboxedOf : Option ServiceSandbox → Bool
  | some (ServiceSandbox.ofBool b) => b
  | some ServiceSandbox.plugin => true
  | some ServiceSandbox.server => false
  | none => false

/-- A canonical registration record held by a realm node: the resolved
service name, whether the service is sandboxed, and the identity of the
realized service instance. -/
structure Registration where
  name : String
  sandboxed : Bool
  instId : Nat
deriving DecidableEq, Repr

/-- One realm node: the parent realm (none at the root), the plugin name the
realm belongs to, and the services registered directly at this node. -/
structure RealmNode where
  parent : Option Nat
  pluginName : String
  localServices : List Registration
deriving DecidableEq, Repr

/-- The realm tree, an arena of nodes addressed by index; the host framework
owns its shape, the engine only reads parent links and reads/writes
`localServices`. -/
structure RealmTree where
  nodes : List RealmNode
deriving DecidableEq, Repr

def emptyNode : RealmNode :=
  { parent := none, pluginName := "", localServices := [] }

def localOf (t : RealmTree) (i : Nat) : List Registration :=
  (t.nodes.getD i emptyNode).localServices

/-- The chain of realms from `i` up to the root, fuelled so the walk is
total even on ill-formed parent links. -/
def ancestorChainAux (t : RealmTree) : Nat → Nat → List Nat
  | 0, _ => []
  | fuel + 1, i =>
    i :: (match (t.nodes.getD i emptyNode).parent with
          | none => []
          | some p => ancestorChainAux t fuel p)

/-- The realm `i` together with all of its ancestors up to the root. -/
def ancestorChain (t : RealmTree) (i : Nat) : List Nat :=
  ancestorChainAux t (t.nodes.length + 1) i

/-- The non-sandboxed part of a service list. -/
def nonSandboxed (l : List Registration) : List Registration :=
  l.filter (fun s => !s.sandboxed)

/-- The contribution of all strict descendants of `req` to `req`'s resolved
view: every non-sandboxed service registered at a realm that has `req` as a
strict ancestor. -/
def descendantContrib (t : RealmTree) (req : Nat) : List Registration :=
  (List.range t.nodes.length).flatMap (fun r =>
    if r ≠ req ∧ (ancestorChain t r).contains req then nonSandboxed (localOf t r)
    else [])

/-- Resolution with no namespace selector, following the documentation of
`SchmerviceDecorator` in `src/lib/index.d.ts`: the services registered by the
requesting realm itself, merged with the non-sandboxed services registered by
every plugin for which the requesting realm is an ancestor. The requesting
realm's own entries come first, so they take precedence on name collision. -/
def resolveServices (t : RealmTree) (req : Nat) : List Registration :=
  localOf t req ++ descendantContrib t req

/-- Resolution with selector `true`, following `src/lib/index.d.ts`: every
service registered anywhere in the tree that is not sandboxed. -/
def resolveAll (t : RealmTree) : List Registration :=
  (List.range t.nodes.length).flatMap (fun r => nonSandboxed (localOf t r))

/-- Looking a name up in a resolved view: the first entry with that name. -/
def lookupService (view : List Registration) (nm : String) : Option Nat :=
  (view.find? (fun s => s.name == nm)).map (fun s => s.instId)

/-- Formalisation of the claim's own words for the no-selector resolution
(spec §4.3): merge the requesting realm's `localServices` with the
non-sandboxed services of every ANCESTOR realm up to the root, nearer realms
first. Kept separate from `resolveServices` so the two directions can be
compared. -/
def specResolveNoSelector (t : RealmTree) (req : Nat) : List Registration :=
  localOf t req ++
    (ancestorChain t req).tail.flatMap (fun a => nonSandboxed (localOf t a))

/-- The spec's example scenario: realm 0 (`A`, the root) registers `shared`
(default sandbox, instance 0); realm 1 (`B`, a child of `A`) registers
`secret` (sandboxed, instance 1). -/
def exampleTree : RealmTree :=
  { nodes :=
      [ { parent := none, pluginName := "A",
          localServices := [{ name := "shared", sandboxed := false, instId := 0 }] },
        { parent := some 0, pluginName := "B",
          localServices := [{ name := "secret", sandboxed := true, instId := 1 }] } ] }

/-- Replacing the service list registered at node `i` (a no-op when `i` is
outside the arena, matching the host owning node creation). -/
def setLocal (t : RealmTree) (i : Nat) (l : List Registration) : RealmTree :=
  { nodes := t.nodes.set i { t.nodes.getD i emptyNode with localServices := l } }

/-- Registering one canonical record at a realm node. Modelled from the spec:
a resolved name must be unique among the definitions registered at the same
realm node, and a collision is a fatal `DuplicateName` registration error. -/
def registerService (t : RealmTree) (realm : Nat) (s : Registration) :
    Except SchmerviceError RealmTree :=
  if (localOf t realm).any (fun x => x.name == s.name) then
    Except.error SchmerviceError.DuplicateName
  else
    Except.ok (setLocal t realm (localOf t realm ++ [s]))

/-- A service declaration before normalization: the explicit overrides set
through the `Schmervice.name` / `Schmervice.sandbox` symbols, the literal
`name` field or property, and the class identifier when the declaration is a
class. -/
structure Declaration where
  nameOverride : Option String
  sandboxOverride : Option ServiceSandbox
  nameField : Option String
  classIdent : Option String
deriving DecidableEq, Repr

/-- Lower-casing only the first character of an identifier. -/
def lowerFirst (s : String) : String :=
  match s.data with
  | [] => ""
  | c :: cs => String.mk (Char.toLower c :: cs)

/-- Modelled from the spec: the final service name of a declaration — the
explicit override set via the naming helper, else the literal `name`
field/property, else the name derived from the class identifier by
lower-casing its first character. The `Schmervice.name` doc comment in
`src/lib/index.d.ts` states that the override is always preferred to the
natural class name or `name` property. -/
def resolveName (d : Declaration) : Option String :=
  match d.nameOverride with
  | some n => some n
  | none =>
    match d.nameField with
    | some n => some n
    | none => d.classIdent.map lowerFirst

/-- The `withName` helper on a class or plain-object declaration, following
the `WithName` doc comments in `src/lib/index.d.ts`: it sets the
`Schmervice.name` override (failing when one is already present), and — only
when sandbox options are supplied — also sets the `Schmervice.sandbox`
override (failing when one is already present). -/
def withNameDecl (nm : String) (opts : Option ServiceSandbox) (d : Declaration) :
    Except SchmerviceError Declaration :=
  if d.nameOverride.isSome then
    Except.error SchmerviceError.NameAlreadySet
  else
    match opts with
    | none => Except.ok { d with nameOverride := some nm }
    | some sb =>
      if d.sandboxOverride.isSome then
        Except.error SchmerviceError.SandboxAlreadySet
      else
        Except.ok { d with nameOverride := some nm, sandboxOverride := some sb }

/-- The `withName` helper on a factory: a new factory that behaves like the
original but post-processes the factory's result with the annotation. -/
def withNameFactory (nm : String) (opts : Option ServiceSandbox)
    (f : Nat → Declaration) : Nat → Except SchmerviceError Declaration :=
  fun a => withNameDecl nm opts (f a)

/-- The per-method cache options: the generate timeout together with an
optional cache-policy name. -/
structure CacheOptions where
  generateTimeout : Nat
  cache : Option String
deriving DecidableEq, Repr

/-- The mutable per-instance state that `Service.caching` acts on: the
resolved service name (empty when unresolved), the method names present on
the instance, and the caching spec once configured. -/
structure ServiceState where
  serviceName : String
  methods : List String
  cachingSpec : Option (List (String × CacheOptions))
deriving DecidableEq, Repr

/-- Modelled from the spec: `service.caching(options)` requires the service
name to be resolved (`MissingName` otherwise), may be called at most once per
instance (`CachingAlreadyConfigured` on a second call), rejects options that
name a method absent on the service (`UnknownCachedMethod`), and otherwise
records the caching spec on the instance. -/
def Service.caching (s : ServiceState) (opts : List (String × CacheOptions)) :
    Except SchmerviceError ServiceState :=
  if s.serviceName = "" then
    Except.error SchmerviceError.MissingName
  else if s.cachingSpec.isSome then
    Except.error SchmerviceError.CachingAlreadyConfigured
  else if opts.any (fun p => !s.methods.contains p.1) then
    Except.error SchmerviceError.UnknownCachedMethod
  else
    Except.ok { s with cachingSpec := some opts }

/-- A service instance for the purpose of `bind`: an identity `self` and a
method table in which every method receives the call's receiver (the
JavaScript `this`, `none` when the method was extracted and called without a
receiver) and one argument. -/
structure BindService (ρ α β : Type) where
  self : ρ
  methods : List (String × (Option ρ → α → β))

/-- Calling a method by name on a service instance: the receiver is the
instance itself. -/
def callOn {ρ α β : Type} (s : BindService ρ α β) (nm : String) (a : α) :
    Option β :=
  (s.methods.find? (fun p => p.1 == nm)).map (fun p => p.2 (some s.self) a)

/-- Calling an extracted method without a receiver. -/
def callDetached {ρ α β : Type} (f : Option ρ → α → β) (a : α) : β :=
  f none a

/-- Modelled from the spec: `service.bind()` returns a new service instance
where all methods are bound to the service instance, so that a method can be
deconstructed without losing its `this` context
(doc comment of `Service.bind` in `src/lib/index.d.ts`). -/
def bindAll {ρ α β : Type} (s : BindService ρ α β) : BindService ρ α β :=
  { s with methods := s.methods.map (fun p => (p.1, fun _ a => p.2 (some s.self) a)) }

/-- A three-realm arena: a root and two sibling child realms, all with empty
service tables. -/
def siblingTree : RealmTree :=
  { nodes :=
      [ { parent := none, pluginName := "root", localServices := [] },
        { parent := some 0, pluginName := "p1", localServices := [] },
        { parent := some 0, pluginName := "p2", localServices := [] } ] }

/-- The sibling arena after the service `svc` has been registered at the
first child realm. -/
def siblingTree1 : RealmTree :=
  setLocal siblingTree 1
    (localOf siblingTree 1 ++ [{ name := "svc", sandboxed := false, instId := 3 }])

lemma localOf_setLocal_self (t : RealmTree) (i : Nat) (l : List Registration)
    (h : i < t.nodes.length) : localOf (setLocal t i l) i = l := by
  simp [localOf, setLocal, List.getD, List.getElem?_set_self, h]

lemma localOf_setLocal_ne (t : RealmTree) (i j : Nat) (l : List Registration)
    (h : i ≠ j) : localOf (setLocal t i l) j = localOf t j := by
  simp [localOf, setLocal, List.getD, List.getElem?_set_ne h]

lemma mem_descendantContrib {t : RealmTree} {req : Nat} {s : Registration} :
    s ∈ descendantContrib t req ↔
      ∃ r, r < t.nodes.length ∧ r ≠ req ∧
        (ancestorChain t r).contains req = true ∧
        s ∈ localOf t r ∧ s.sandboxed = false := by
  constructor
  · intro h
    obtain ⟨r, hr, hmem⟩ := List.mem_flatMap.mp h
    by_cases hc : r ≠ req ∧ (ancestorChain t r).contains req
    · rw [if_pos hc] at hmem
      obtain ⟨hmem', hns⟩ := List.mem_filter.mp hmem
      exact ⟨r, List.mem_range.mp hr, hc.1, hc.2, hmem',
        by simpa using hns⟩
    · rw [if_neg hc] at hmem
      exact absurd hmem (List.not_mem_nil s)
  · rintro ⟨r, hr, hne, hanc, hmem, hns⟩
    refine List.mem_flatMap.mpr ⟨r, List.mem_range.mpr hr, ?_⟩
    rw [if_pos ⟨hne, hanc⟩]
    exact List.mem_filter.mpr ⟨hmem, by simp [hns]⟩

lemma mem_resolveAll {t : RealmTree} {s : Registration} :
    s ∈ resolveAll t ↔
      ∃ r, r < t.nodes.length ∧ s ∈ localOf t r ∧ s.sandboxed = false := by
  constructor
  · intro h
    obtain ⟨r, hr, hmem⟩ := List.mem_flatMap.mp h
    obtain ⟨hmem', hns⟩ := List.mem_filter.mp hmem
    exact ⟨r, List.mem_range.mp hr, hmem', by simpa using hns⟩
  · rintro ⟨r, hr, hmem, hns⟩
    exact List.mem_flatMap.mpr ⟨r, List.mem_range.mpr hr,
      List.mem_filter.mpr ⟨hmem, by simp [hns]⟩⟩

/-- C1, counterexample: the claim states that resolving from a realm with no
selector merges the requesting realm's services with its ANCESTORS'
non-sandboxed services, so that in the spec's own example scenario resolving
from the child realm `B` yields `shared` (registered at the root `A`). Under
the visibility direction documented in `src/lib/index.d.ts` (a realm sees its
own and its descendants' non-sandboxed services), resolving from `B` does not
contain `shared`, while the claim's ancestor-merge formalisation does. -/
theorem C1_counterexample :
    lookupService (resolveServices exampleTree 1) "shared" = none ∧
    lookupService (specResolveNoSelector exampleTree 1) "shared" = some 0 ∧
    lookupService (resolveServices exampleTree 1) "secret" = some 1 ∧
    lookupService (resolveServices exampleTree 0) "shared" = some 0 :=
  ⟨rfl, rfl, rfl, rfl⟩

/-- C1 (amended): for every requesting realm, resolution with no namespace
selector returns the merge of the requesting realm's `localServices` with all
non-sandboxed services from every DESCENDANT realm (every realm having the
requesting realm as a strict ancestor), and on a name collision the
requesting realm's own definition takes precedence. -/
theorem C1_resolution_merge (t : RealmTree) (req : Nat) (s : Registration) :
    (s ∈ resolveServices t req ↔
      s ∈ localOf t req ∨
        ∃ r, r < t.nodes.length ∧ r ≠ req ∧
          (ancestorChain t r).contains req = true ∧
          s ∈ localOf t r ∧ s.sandboxed = false) ∧
    (∀ nm, (localOf t req).find? (fun x => x.name == nm) = some s →
      (resolveServices t req).find? (fun x => x.name == nm) = some s) := by
  constructor
  · rw [resolveServices, List.mem_append, mem_descendantContrib]
  · intro nm h
    rw [resolveServices, List.find?_append, h, Option.or]

/-- Witness for the amended C1 at the example arena: the root's own entry for
`shared` is the one returned by resolution from the root. -/
theorem C1_resolution_merge_witness :
    (resolveServices exampleTree 0).find? (fun x => x.name == "shared")
      = some { name := "shared", sandboxed := false, instId := 0 } :=
  (C1_resolution_merge exampleTree 0
    { name := "shared", sandboxed := false, instId := 0 }).2 "shared" rfl

/-- C2: a service registered with `sandbox = Plugin` at realm `R` is present
in `R`'s own resolved view, and absent (as an instance) from the resolved
view of every strict ancestor of `R` and from the root (`true`-selector)
view; a service registered with the default (server) sandbox is present in
its own realm's view, in every ancestor's view and in the root view. -/
theorem C2_sandbox_visibility (t : RealmTree) (R : Nat) (s : Registration)
    (hR : R < t.nodes.length) (hs : s ∈ localOf t R)
    (huniq : ∀ r, r < t.nodes.length → ∀ x ∈ localOf t r,
      x.instId = s.instId → r = R ∧ x = s) :
    s ∈ resolveServices t R ∧
    (s.sandboxed = true →
      ∀ a, a ≠ R → (ancestorChain t R).contains a = true →
        ∀ x ∈ resolveServices t a, x.instId ≠ s.instId) ∧
    (s.sandboxed = true → ∀ x ∈ resolveAll t, x.instId ≠ s.instId) ∧
    (s.sandboxed = false →
      ∀ a, (ancestorChain t R).contains a = true → s ∈ resolveServices t a) ∧
    (s.sandboxed = false → s ∈ resolveAll t) := by
  refine ⟨List.mem_append_left _ hs, ?_, ?_, ?_, ?_⟩
  · intro hsb a haR _ x hx hid
    rcases List.mem_append.mp hx with hloc | hdesc
    · by_cases ha : a < t.nodes.length
      · obtain ⟨haR', -⟩ := huniq a ha x hloc hid
        exact haR haR'
      · have : t.nodes.getD a emptyNode = emptyNode :=
          List.getD_eq_default _ _ (Nat.le_of_not_lt ha)
        rw [localOf, this] at hloc
        exact absurd hloc (List.not_mem_nil x)
    · obtain ⟨r, hr, -, -, hmem, hns⟩ := mem_descendantContrib.mp hdesc
      obtain ⟨-, hxval⟩ := huniq r hr x hmem hid
      rw [hxval, hsb] at hns
      exact Bool.true_eq_false.mp hns
  · intro hsb x hx hid
    obtain ⟨r, hr, hmem, hns⟩ := mem_resolveAll.mp hx
    obtain ⟨-, hxval⟩ := huniq r hr x hmem hid
    rw [hxval, hsb] at hns
    exact Bool.true_eq_false.mp hns
  · intro hns a hcont
    by_cases haR : R = a
    · exact haR ▸ List.mem_append_left _ hs
    · exact List.mem_append_right _
        (mem_descendantContrib.mpr ⟨R, hR, haR, hcont, hs, hns⟩)
  · intro hns
    exact mem_resolveAll.mpr ⟨R, hR, hs, hns⟩

/-- Witness for C2 at the example arena: the sandboxed `secret` service is
present in its own realm's resolved view. -/
theorem C2_sandbox_visibility_witness :
    ({ name := "secret", sandboxed := true, instId := 1 } : Registration)
      ∈ resolveServices exampleTree 1 :=
  (C2_sandbox_visibility exampleTree 1
    { name := "secret", sandboxed := true, instId := 1 }
    (by decide) (by decide) (by decide)).1

/-- C3: resolution with selector `true` returns the full server-wide view:
a registration is in it exactly when some node of the tree holds it and it is
not sandboxed, and every sandboxed registration — at whatever depth,
including the root's own — is excluded. -/
theorem C3_root_view (t : RealmTree) (s : Registration) :
    (s ∈ resolveAll t ↔
      ∃ r, r < t.nodes.length ∧ s ∈ localOf t r ∧ s.sandboxed = false) ∧
    (s.sandboxed = true → s ∉ resolveAll t) := by
  refine ⟨mem_resolveAll, ?_⟩
  intro hsb hmem
  obtain ⟨-, -, -, hns⟩ := mem_resolveAll.mp hmem
  rw [hsb] at hns
  exact Bool.true_eq_false.mp hns

/-- Witness for C3 at the example arena: `shared` is in the root view, the
sandboxed `secret` is not. -/
theorem C3_root_view_witness :
    ({ name := "shared", sandboxed := false, instId := 0 } : Registration)
      ∈ resolveAll exampleTree ∧
    ({ name := "secret", sandboxed := true, instId := 1 } : Registration)
      ∉ resolveAll exampleTree :=
  ⟨(C3_root_view exampleTree
      { name := "shared", sandboxed := false, instId := 0 }).1.mpr
        ⟨0, by decide, by decide, rfl⟩,
   (C3_root_view exampleTree
      { name := "secret", sandboxed := true, instId := 1 }).2 rfl⟩

/-- C4: the final service name is the explicit override when present, else
the literal `name` field, else the name derived from the class identifier;
and the derivation lower-cases only the first character, leaving all
subsequent characters unchanged. -/
theorem C4_name_precedence (d : Declaration) :
    (∀ n, d.nameOverride = some n → resolveName d = some n) ∧
    (d.nameOverride = none → ∀ n, d.nameField = some n → resolveName d = some n) ∧
    (d.nameOverride = none → d.nameField = none →
      resolveName d = d.classIdent.map lowerFirst) ∧
    (∀ c cs, lowerFirst (String.mk (c :: cs)) = String.mk (Char.toLower c :: cs)) := by
  refine ⟨?_, ?_, ?_, ?_⟩
  · intro n h
    simp [resolveName, h]
  · intro h0 n h
    simp [resolveName, h0, h]
  · intro h0 h1
    simp [resolveName, h0, h1]
  · intro c cs
    rfl

/-- Witness for C4: a class-only declaration named `MyService` resolves to
`myService`. -/
theorem C4_name_precedence_witness :
    resolveName
      { nameOverride := none, sandboxOverride := none,
        nameField := none, classIdent := some "MyService" } = some "myService" :=
  ((C4_name_precedence
    { nameOverride := none, sandboxOverride := none,
      nameField := none, classIdent := some "MyService" }).2.2.1 rfl rfl).trans
    (by decide)

/-- C5, counterexample: the claim states that the naming helper fails on
every declaration that already carries an explicit name OR sandbox override.
Per the `WithName` documentation in `src/lib/index.d.ts`, the sandbox check
applies only when sandbox options are supplied: applying the helper without
options to a declaration that already carries a sandbox override succeeds
(and leaves the override intact) rather than failing. -/
theorem C5_counterexample :
    withNameDecl "x" none
        { nameOverride := none, sandboxOverride := some ServiceSandbox.plugin,
          nameField := none, classIdent := none }
      = Except.ok
        { nameOverride := some "x", sandboxOverride := some ServiceSandbox.plugin,
          nameField := none, classIdent := none } := rfl

/-- C5 (amended): the naming helper applied to a plain object or class
declaration returns that declaration updated in place with the annotation
(all other fields preserved); applied to a factory it returns a new factory
that adds the annotation to the factory's result; a declaration already
carrying an explicit name makes it fail with `NameAlreadySet`, and — when a
sandbox option is supplied — a declaration already carrying an explicit
sandbox override makes it fail with `SandboxAlreadySet`; it never silently
overwrites an existing override. -/
theorem C5_withName (nm : String) (opts : Option ServiceSandbox)
    (d : Declaration) (f : Nat → Declaration) (x : Nat) :
    (d.nameOverride = none → opts = none →
      withNameDecl nm opts d = Except.ok { d with nameOverride := some nm }) ∧
    (d.nameOverride = none → ∀ sb, opts = some sb → d.sandboxOverride = none →
      withNameDecl nm opts d
        = Except.ok { d with nameOverride := some nm, sandboxOverride := some sb }) ∧
    (∀ n0, d.nameOverride = some n0 →
      withNameDecl nm opts d = Except.error SchmerviceError.NameAlreadySet) ∧
    (∀ sb s0, opts = some sb → d.sandboxOverride = some s0 → d.nameOverride = none →
      withNameDecl nm opts d = Except.error SchmerviceError.SandboxAlreadySet) ∧
    withNameFactory nm opts f x = withNameDecl nm opts (f x) := by
  refine ⟨?_, ?_, ?_, ?_, rfl⟩
  · intro h0 h1
    simp [withNameDecl, h0, h1]
  · intro h0 sb h1 h2
    simp [withNameDecl, h0, h1, h2]
  · intro n0 h
    simp [withNameDecl, h]
  · intro sb s0 h0 h1 h2
    simp [withNameDecl, h0, h1, h2]

/-- Witness for the amended C5: the helper fails with `NameAlreadySet` on a
declaration that already carries the explicit name `taken`. -/
theorem C5_withName_witness :
    withNameDecl "x" none
        { nameOverride := some "taken", sandboxOverride := none,
          nameField := none, classIdent := none }
      = Except.error SchmerviceError.NameAlreadySet :=
  (C5_withName "x" none
    { nameOverride := some "taken", sandboxOverride := none,
      nameField := none, classIdent := none }
    (fun _ => { nameOverride := none, sandboxOverride := none,
                nameField := none, classIdent := none }) 0).2.2.1 "taken" rfl

/-- C6: whenever a first `caching()` call on a service instance succeeds,
any second `caching()` call on the resulting instance fails with
`CachingAlreadyConfigured`, regardless of the options passed to either
call. -/
theorem C6_caching_once (s s' : ServiceState)
    (o1 o2 : List (String × CacheOptions))
    (h : Service.caching s o1 = Except.ok s') :
    Service.caching s' o2 = Except.error SchmerviceError.CachingAlreadyConfigured := by
  unfold Service.caching at h
  split_ifs at h with h1 h2 h3
  obtain rfl : ({ s with cachingSpec := some o1 } : ServiceState) = s' :=
    Except.ok.inj h
  simp [Service.caching, h1]

/-- Witness for C6: a concrete second call fails even with fresh options. -/
theorem C6_caching_once_witness :
    Service.caching
        { serviceName := "svc", methods := ["m"],
          cachingSpec := some [("m", { generateTimeout := 1, cache := none })] }
        []
      = Except.error SchmerviceError.CachingAlreadyConfigured :=
  C6_caching_once
    { serviceName := "svc", methods := ["m"], cachingSpec := none }
    { serviceName := "svc", methods := ["m"],
      cachingSpec := some [("m", { generateTimeout := 1, cache := none })] }
    [("m", { generateTimeout := 1, cache := none })] [] rfl

/-- C7: configuring caching on a service whose name is unresolved (empty)
fails with the missing-name error, and whenever `caching()` succeeds the
service's name was already resolved and non-empty beforehand. -/
theorem C7_caching_requires_name (s : ServiceState)
    (opts : List (String × CacheOptions)) :
    (s.serviceName = "" →
      Service.caching s opts = Except.error SchmerviceError.MissingName) ∧
    (∀ s', Service.caching s opts = Except.ok s' → s.serviceName ≠ "") := by
  constructor
  · intro h
    simp [Service.caching, h]
  · intro s' h h0
    simp [Service.caching, h0] at h

/-- Witness for C7: caching on an unnamed service fails with `MissingName`. -/
theorem C7_caching_requires_name_witness :
    Service.caching
        { serviceName := "", methods := ["m"], cachingSpec := none } []
      = Except.error SchmerviceError.MissingName :=
  (C7_caching_requires_name
    { serviceName := "", methods := ["m"], cachingSpec := none } []).1 rfl

/-- C8: registering a second declaration whose resolved name equals that of a
declaration already registered at the same realm node fails with
`DuplicateName`, while registering declarations with equal resolved names at
two distinct realms (in particular siblings) never fails for that reason. -/
theorem C8_duplicate_names (t : RealmTree) (r1 r2 : Nat) (s1 s2 : Registration)
    (hr1 : r1 < t.nodes.length) (hne : r1 ≠ r2) (hn : s1.name = s2.name) :
    ((localOf t r1).any (fun x => x.name == s1.name) = true →
      registerService t r1 s1 = Except.error SchmerviceError.DuplicateName) ∧
    (∀ t', registerService t r1 s1 = Except.ok t' →
      registerService t' r1 s2 = Except.error SchmerviceError.DuplicateName) ∧
    (∀ t', registerService t r1 s1 = Except.ok t' →
      (localOf t r2).any (fun x => x.name == s2.name) = false →
      ∃ t'', registerService t' r2 s2 = Except.ok t'') := by
  refine ⟨?_, ?_, ?_⟩
  · intro h
    simp [registerService, h]
  · intro t' h
    unfold registerService at h
    split_ifs at h with hdup
    obtain rfl : setLocal t r1 (localOf t r1 ++ [s1]) = t' := Except.ok.inj h
    have hloc : localOf (setLocal t r1 (localOf t r1 ++ [s1])) r1
        = localOf t r1 ++ [s1] := localOf_setLocal_self t r1 _ hr1
    have hany : (localOf t r1 ++ [s1]).any (fun x => x.name == s2.name) = true := by
      rw [List.any_append]
      simp [hn]
    simp [registerService, hloc, hany]
  · intro t' h h2
    unfold registerService at h
    split_ifs at h with hdup
    obtain rfl : setLocal t r1 (localOf t r1 ++ [s1]) = t' := Except.ok.inj h
    have hloc : localOf (setLocal t r1 (localOf t r1 ++ [s1])) r2
        = localOf t r2 := localOf_setLocal_ne t r1 r2 _ hne
    refine ⟨setLocal (setLocal t r1 (localOf t r1 ++ [s1])) r2
      (localOf (setLocal t r1 (localOf t r1 ++ [s1])) r2 ++ [s2]), ?_⟩
    simp [registerService, hloc, h2]

/-- Witness for C8 at the sibling arena: after registering `svc` at the first
child realm, registering the same name again there fails with
`DuplicateName`, while registering it at the sibling realm succeeds. -/
theorem C8_duplicate_names_witness :
    registerService siblingTree1 1 { name := "svc", sandboxed := false, instId := 4 }
      = Except.error SchmerviceError.DuplicateName ∧
    ∃ t'', registerService siblingTree1 2
        { name := "svc", sandboxed := false, instId := 4 }
      = Except.ok t'' :=
  ⟨(C8_duplicate_names siblingTree 1 2
      { name := "svc", sandboxed := false, instId := 3 }
      { name := "svc", sandboxed := false, instId := 4 }
      (by decide) (by decide) rfl).2.1 siblingTree1 rfl,
   (C8_duplicate_names siblingTree 1 2
      { name := "svc", sandboxed := false, instId := 3 }
      { name := "svc", sandboxed := false, instId := 4 }
      (by decide) (by decide) rfl).2.2 siblingTree1 rfl rfl⟩

lemma find?_map_snd {ρ α β : Type} (g : (Option ρ → α → β) → (Option ρ → α → β))
    (nm : String) (l : List (String × (Option ρ → α → β))) :
    (l.map (fun p => (p.1, g p.2))).find? (fun p => p.1 == nm)
      = (l.find? (fun p => p.1 == nm)).map (fun p => (p.1, g p.2)) := by
  induction l with
  | nil => rfl
  | cons hd tl ih =>
    by_cases hhd : hd.1 == nm
    · simp [List.find?, hhd]
    · simp only [List.map_cons, List.find?]
      rw [show ((hd.1, g hd.2) : String × (Option ρ → α → β)).1 = hd.1 from rfl]
      simp only [hhd]
      exact ih

/-- C10: `bind()` returns a new service instance equivalent to the original —
same method names, and calling any method on it behaves as on the original —
on which every method is bound to the original instance, so that a method
extracted from the returned instance and called without a receiver behaves
identically to calling it on the original instance. -/
theorem C10_bind (ρ α β : Type) (s : BindService ρ α β) (nm : String) (a : α) :
    (bindAll s).methods.map Prod.fst = s.methods.map Prod.fst ∧
    callOn (bindAll s) nm a = callOn s nm a ∧
    ((bindAll s).methods.find? (fun p => p.1 == nm)).map
        (fun p => callDetached p.2 a)
      = (s.methods.find? (fun p => p.1 == nm)).map
        (fun p => p.2 (some s.self) a) := by
  refine ⟨?_, ?_, ?_⟩
  · simp [bindAll]
  · unfold callOn bindAll
    simp only
    rw [find?_map_snd (fun f => fun _ a => f (some s.self) a) nm s.methods]
    cases s.methods.find? (fun p => p.1 == nm) <;> rfl
  · unfold callDetached bindAll
    simp only
    rw [find?_map_snd (fun f => fun _ a => f (some s.self) a) nm s.methods]
    cases s.methods.find? (fun p => p.1 == nm) <;> rfl

end Schmervice
